import Mathlib

/-!
Verification development for the OHLC fetch/normalize/persist pipeline in
`save_data.py`.

The embedding models the Python code shallowly:
* JSON scalar values that can appear in the provider's timestamp array `t`
  are modelled by `TsElem` (an integer, `null`, or a non-numeric string);
  price/volume entries by `PVal` (a rational number, `null`, or a
  non-numeric entry).  Floating point numbers from the provider are
  integral epochs in practice and are modelled as integers; prices are
  modelled as rationals.  Float `NaN` cannot appear in decoded JSON
  (JSON `null` decodes to Python `None`) and is not modelled.
* Python exceptions are modelled with `Except Unit`; a `.error ()` result
  of an embedded function means the corresponding Python code raises.
* A pandas `DataFrame` produced by the pipeline is modelled as a
  `List Candle`; `NaT` / `NaN` cells are `Option.none` fields.
* `pandas.sort_values("Date")` sorts ascending with missing dates placed
  last.  The pandas default `quicksort` is not stable, but every claim in
  scope is insensitive to the order of date-ties, so the embedding uses
  the (stable) insertion sort from Mathlib with the same key order.
* CSV round-tripping (`to_csv` / `read_csv(parse_dates=["Date"])`) is the
  identity on the modelled cell values (naive datetimes, floats and
  missing markers round-trip exactly), so the store holds `List Candle`
  directly.
-/

/-- A scalar that can occur in the provider's timestamp array `t`:
an integer epoch, JSON `null` (Python `None`), or a non-numeric string.
(`TsElem.bad s` stands for a string that `int()` cannot parse; numeric
strings are represented directly by `TsElem.num`.) -/
inductive TsElem where
  | null : TsElem
  | num (n : Int) : TsElem
  | bad (s : String) : TsElem
deriving DecidableEq

/-- A scalar that can occur in a price/volume array: a number, `null`,
or a non-numerically-coercible entry. -/
inductive PVal where
  | num (q : ℚ) : PVal
  | null : PVal
  | bad : PVal
deriving DecidableEq

/-- One row of the normalized table.  `Date` is the naive local
wall-clock timestamp, represented as seconds since 1970-01-01 00:00 of
the local wall clock (`none` = `NaT`); the other fields are `none` when
the cell is a missing-value marker (`NaN`). -/
structure Candle where
  Date : Option Int
  Open : Option ℚ
  High : Option ℚ
  Low : Option ℚ
  Close : Option ℚ
  Volume : Option ℚ
deriving DecidableEq

/-- The provider payload `ohlc_data`: a dict with optional keys
`t`, `o`, `h`, `l`, `c`, `v` (`none` = key absent). -/
structure RawOhlc where
  t : Option (List TsElem)
  o : Option (List PVal)
  h : Option (List PVal)
  l : Option (List PVal)
  c : Option (List PVal)
  v : Option (List PVal)
deriving DecidableEq

/-- Python truthiness of the payload dict: `not ohlc_data` is true iff
the dict is empty, i.e. no key is present. -/
def RawOhlc.isEmpty (p : RawOhlc) : Bool :=
  p.t.isNone && p.o.isNone && p.h.isNone && p.l.isNone && p.c.isNone && p.v.isNone

/-- Python's `>` on two timestamp-array scalars.  Comparing `None` with
anything, or a string with a number, raises `TypeError` (modelled as
`.error ()`); numbers compare numerically and strings lexicographically. -/
def pyGt : TsElem → TsElem → Except Unit Bool
  | .num a, .num b => .ok (decide (b < a))
  | .bad a, .bad b => .ok (decide (b < a))
  | _, _ => .error ()

/-- Python's `max` over a non-empty list, given the first element as the
accumulator: it scans left to right replacing the accumulator whenever
`item > acc`, and propagates the `TypeError` of an ill-typed comparison. -/
def pyMaxFrom (acc : TsElem) : List TsElem → Except Unit TsElem
  | [] => .ok acc
  | x :: xs =>
    match pyGt x acc with
    | .error e => .error e
    | .ok b => pyMaxFrom (if b then x else acc) xs

/-- Line 55 of `save_data.py`: `max(t_list or [0]) > 1_000_000_000_000`.
An empty `t_list` is falsy, so the max is taken over `[0]`. -/
def unitCond (t_list : List TsElem) : Except Unit Bool :=
  match (match t_list with
         | [] => Except.ok (TsElem.num 0)
         | x :: xs => pyMaxFrom x xs) with
  | .error e => .error e
  | .ok m => pyGt m (.num 1000000000000)

/-- One element of the millisecond-division comprehension (line 56):
`int(x) // 1000 if (x is not None and pd.notna(x)) else None`.
Python `//` is floor division (`Int.fdiv`); `int()` on a non-numeric
string raises `ValueError`. -/
def msDivElem : TsElem → Except Unit TsElem
  | .null => .ok .null
  | .num n => .ok (.num (Int.fdiv n 1000))
  | .bad _ => .error ()

/-- Left-to-right effectful map: a Python list comprehension in which the
body may raise; the first raise propagates. -/
def mapE {α β : Type} (f : α → Except Unit β) : List α → Except Unit (List β)
  | [] => .ok []
  | x :: xs =>
    match f x with
    | .error e => .error e
    | .ok y =>
      match mapE f xs with
      | .error e => .error e
      | .ok ys => .ok (y :: ys)

/-- Lines 54-56 of `save_data.py`: the whole-array millisecond-unit
decision and, when taken, the element-wise division by 1000. -/
def normTs (t_list : List TsElem) : Except Unit (List TsElem) :=
  match unitCond t_list with
  | .error e => .error e
  | .ok b => if b then mapE msDivElem t_list else .ok t_list

/-- Smallest epoch second representable by `datetime` (0001-01-01T00:00:00). -/
def MIN_TS : Int := -62135596800

/-- Largest epoch second representable by `datetime` (9999-12-31T23:59:59). -/
def MAX_TS : Int := 253402300799

/-- Range in which `datetime.fromtimestamp(n, tz=utc).astimezone(target)`
succeeds: both the UTC instant and its local wall clock at offset
`off` minutes must lie inside the representable `datetime` range. -/
def tsInRange (off : Int) (n : Int) : Bool :=
  decide (MIN_TS ≤ n) && decide (n ≤ MAX_TS) &&
  decide (MIN_TS ≤ n + off * 60) && decide (n + off * 60 ≤ MAX_TS)

/-- One element of the datetime comprehension (lines 59-62):
`datetime.fromtimestamp(int(ts), tz=timezone.utc).astimezone(target_tz) if ts else pd.NaT`.
The guard is Python truthiness: `None`, `0` and the empty string are falsy
and map to `NaT`; a truthy non-numeric string makes `int(ts)` raise.  The
aware datetime is represented by its UTC epoch second (the target offset
is applied when the timezone is stripped at the end). -/
def toDate (off : Int) : TsElem → Except Unit (Option Int)
  | .null => .ok none
  | .num n =>
    if n = 0 then .ok none
    else if tsInRange off n then .ok (some n) else .error ()
  | .bad s => if s = "" then .ok none else .error ()

/-- `pd.to_numeric(-, errors="coerce")` on one entry: numbers pass
through, `null` and non-coercible entries become the missing marker. -/
def coerceP : PVal → Option ℚ
  | .num q => some q
  | .null => none
  | .bad => none

/-- Row assembly of the `pd.DataFrame` constructor: align the six columns
by index.  (The caller checks the lengths are equal first, mirroring the
constructor's `ValueError` on ragged input.) -/
def buildRows : List (Option Int) → List (Option ℚ) → List (Option ℚ) →
    List (Option ℚ) → List (Option ℚ) → List (Option ℚ) → List Candle
  | d :: ds, o :: os, h :: hs, l :: ls, c :: cs, v :: vs =>
    ⟨d, o, h, l, c, v⟩ :: buildRows ds os hs ls cs vs
  | _, _, _, _, _, _ => []

/-- Sort key order of `sort_values("Date")`: ascending by date with
missing dates (`NaT`) last; two missing dates tie. -/
def dateLE (a b : Candle) : Prop :=
  match b.Date with
  | none => True
  | some bv =>
    match a.Date with
    | none => False
    | some av => av ≤ bv

instance : DecidableRel dateLE := fun a b => by
  unfold dateLE
  rcases b.Date with _ | bv
  · exact inferInstance
  · rcases a.Date with _ | av
    · exact inferInstance
    · exact inferInstance

instance : IsTotal Candle dateLE := by
  constructor
  intro a b
  obtain ⟨ad, _, _, _, _, _⟩ := a
  obtain ⟨bd, _, _, _, _, _⟩ := b
  unfold dateLE
  rcases ad with _ | av <;> rcases bd with _ | bv <;> simp
  exact Int.le_total av bv

instance : IsTrans Candle dateLE := by
  constructor
  intro a b c hab hbc
  obtain ⟨ad, _, _, _, _, _⟩ := a
  obtain ⟨bd, _, _, _, _, _⟩ := b
  obtain ⟨cd, _, _, _, _, _⟩ := c
  unfold dateLE at *
  rcases ad with _ | av <;> rcases bd with _ | bv <;>
    rcases cd with _ | cv <;> simp_all
  exact Int.le_trans hab hbc

/-- Line 73: `df.sort_values("Date", inplace=True)`. -/
def sortByDate (l : List Candle) : List Candle :=
  List.insertionSort dateLE l

/-- Line 75: `df["Date"].dt.tz_localize(None)` — dropping the timezone
keeps the local wall clock, i.e. shifts the stored epoch by the fixed
offset; `NaT` stays `NaT`. -/
def stripTz (off : Int) (c : Candle) : Candle :=
  { c with Date := c.Date.map (fun n => n + off * 60) }

/-- Lines 50-76 of `save_data.py`: `normalize_ohlc(ohlc_data, return_tz_offset_minutes)`.
Returns `.error ()` exactly when the Python function raises. -/
def normalize_ohlc (off : Int) (p : RawOhlc) : Except Unit (List Candle) :=
  if p.isEmpty then .ok []
  else
    match normTs (p.t.getD []) with
    | .error e => .error e
    | .ok t_list =>
      match mapE (toDate off) t_list with
      | .error e => .error e
      | .ok dates =>
        let opens := (p.o.getD []).map coerceP
        let highs := (p.h.getD []).map coerceP
        let lows := (p.l.getD []).map coerceP
        let closes := (p.c.getD []).map coerceP
        let vols := match p.v with
          | some vl => vl.map coerceP
          | none => List.replicate dates.length (some (0 : ℚ))
        if opens.length = dates.length ∧ highs.length = dates.length ∧
            lows.length = dates.length ∧ closes.length = dates.length ∧
            vols.length = dates.length then
          .ok ((sortByDate (buildRows dates opens highs lows closes vols)).map
                (stripTz off))
        else .error ()

/-- Python's `int()` applied to a number: truncation toward zero (for a
rational `q`, `q.num / q.den` with T-division). -/
def pyInt (q : ℚ) : Int := Int.tdiv q.num q.den

/-- Lines 26-33 of `save_data.py`: the absence and numeric branches of
`to_unix_timestamp` (the only branches the spec's numeric contract is
about).  `None` maps to `None`; a number is truncated to an integer and,
when strictly greater than `10^12`, floor-divided by 1000. -/
def to_unix_timestamp : Option ℚ → Option Int
  | none => none
  | some q =>
    let iv := pyInt q
    if 1000000000000 < iv then some (Int.fdiv iv 1000) else some iv

/-- The `Date` column of a table. -/
def keysOf (l : List Candle) : List (Option Int) := l.map Candle.Date

/-- First row of the table with the given `Date` key (`NaT` keys compare
equal, as in pandas `duplicated`). -/
def findByDate (d : Option Int) (l : List Candle) : Option Candle :=
  l.find? (fun c => c.Date == d)

/-- Worker for `drop_duplicates(subset=["Date"])` with `keep="first"`:
keep a row iff its `Date` was not seen in an earlier kept row (pandas
hashes keys, so `NaT` duplicates are dropped too). -/
def dedupAux (seen : List (Option Int)) : List Candle → List Candle
  | [] => []
  | x :: xs =>
    if x.Date ∈ seen then dedupAux seen xs
    else x :: dedupAux (x.Date :: seen) xs

/-- Line 116: `df.drop_duplicates(subset=["Date"], inplace=True)`. -/
def dedupByDate (l : List Candle) : List Candle := dedupAux [] l

/-- Column order fixed by line 119's `to_csv(..., columns=[...])`. -/
def save_columns : List String :=
  ["Date", "Open", "High", "Low", "Close", "Volume"]

/-- Lines 109-119 of `save_data.py`: `save_to_csv`.  The store for the
`(symbol, timeframe)` key is `old` (`none` = no file yet); the result is
the table persisted after the call.  On the create path the incoming
table is written as-is; otherwise the existing rows are concatenated
before the incoming ones, deduplicated by `Date` keeping the first
occurrence, and re-sorted ascending by `Date`. -/
def save_to_csv (old : Option (List Candle)) (df : List Candle) : List Candle :=
  match old with
  | none => df
  | some old_df => sortByDate (dedupByDate (old_df ++ df))

/-- Outcome of the single HTTP request of `get_ohlc`: the request itself
raises (network error / timeout), or a response arrives with a status
code and a body.  `body = none` models a body `resp.json()` cannot parse;
`body = some d` models a parsed JSON object whose `data` field is `d`
(absent or `{}` collapse to an empty `RawOhlc`). -/
inductive ProviderResult where
  | netError : ProviderResult
  | response (status : Nat) (body : Option RawOhlc) : ProviderResult

/-- Lines 86-102 of `save_data.py`: the body of `get_ohlc`'s `try` block.
`raise_for_status` raises on 4xx/5xx; a body that fails to parse raises;
an empty payload falls through to the final `return pd.DataFrame()`;
otherwise the payload is normalized with a target offset of +3:30
(which may itself raise, e.g. on null timestamps). -/
def get_ohlc_inner : ProviderResult → Except Unit (List Candle)
  | .netError => .error ()
  | .response s body =>
    if 400 ≤ s ∧ s < 600 then .error ()
    else
      match body with
      | none => .error ()
      | some d => if d.isEmpty then .ok [] else normalize_ohlc (3 * 60 + 30) d

/-- Lines 80-105 of `save_data.py`: `get_ohlc`, with the catch-all
`except Exception` converting every raise inside the `try` block into an
empty table. -/
def get_ohlc (r : ProviderResult) : List Candle :=
  match get_ohlc_inner r with
  | .ok df => df
  | .error _ => []

/-- Observable actions of one iteration of the batch driver. -/
inductive Event where
  | fetch (attempt : Nat) : Event
  | sleep (secs : Nat) : Event
  | write (df : List Candle) : Event
  | reportFail : Event
deriving DecidableEq

/-- Line 124: `MAX_RETRIES = 3`. -/
def MAX_RETRIES : Nat := 3

/-- Lines 131-138: the retry loop for one `(symbol, timeframe)` pair.
`outcomes k` is what the `get_ohlc` call of attempt `k` does: return a
table, or raise (the driver's `try`/`except` allows for either).  A
failed attempt — a raise or an empty table — is followed by
`time.sleep(2)` and the next attempt; a non-empty table breaks out of
the loop immediately.  Returns the final value of `df` (empty when every
attempt failed, since `df` only ever holds empty tables before a break)
and the trace of events. -/
def attemptLoop (outcomes : Nat → Except Unit (List Candle)) :
    Nat → Nat → List Candle × List Event
  | _, 0 => ([], [])
  | attempt, fuel + 1 =>
    match outcomes attempt with
    | .ok df =>
      if df.isEmpty then
        let r := attemptLoop outcomes (attempt + 1) fuel
        (r.1, Event.fetch attempt :: Event.sleep 2 :: r.2)
      else (df, [Event.fetch attempt])
    | .error _ =>
      let r := attemptLoop outcomes (attempt + 1) fuel
      (r.1, Event.fetch attempt :: Event.sleep 2 :: r.2)

/-- Lines 128-144: processing of one `(symbol, timeframe)` pair: run the
retry loop, then either hand the non-empty result to `save_to_csv`
(`store` is the persisted table for this key, `none` if absent) or
report failure, leaving the store untouched. -/
def processPair (outcomes : Nat → Except Unit (List Candle))
    (store : Option (List Candle)) : Option (List Candle) × List Event :=
  let r := attemptLoop outcomes 1 MAX_RETRIES
  if r.1.isEmpty then (store, r.2 ++ [Event.reportFail])
  else (some (save_to_csv store r.1), r.2 ++ [Event.write (save_to_csv store r.1)])

/-- Number of fetch attempts recorded in an event trace. -/
def countFetch (evs : List Event) : Nat :=
  (evs.filter (fun e => match e with | .fetch _ => true | _ => false)).length

/-- Number of store writes recorded in an event trace. -/
def countWrite (evs : List Event) : Nat :=
  (evs.filter (fun e => match e with | .write _ => true | _ => false)).length

/-- Trace of the first `n` failed attempts: each fetch is followed by the
fixed 2-second delay. -/
def failEvents (n : Nat) : List Event :=
  (List.range n).flatMap (fun i => [Event.fetch (i + 1), Event.sleep 2])

/-- A failed attempt in the sense of the driver: the call raised or the
resulting table was empty. -/
def isFailure (r : Except Unit (List Candle)) : Prop :=
  r = .error () ∨ r = .ok []

/-- Maximum of a list of integers, with Python's `max(t_list or [0])`
convention that the empty list yields `0`. -/
def listMaxInt : List Int → Int
  | [] => 0
  | x :: xs => xs.foldl max x

/-- Concrete payload of the spec's end-to-end scenario for claim C9:
`{t:[1690000000,1690000300], o:[100,101], h:[102,103], l:[99,100], c:[101,102]}`, no `v`. -/
def payloadC9 : RawOhlc :=
  { t := some [.num 1690000000, .num 1690000300]
    o := some [.num 100, .num 101]
    h := some [.num 102, .num 103]
    l := some [.num 99, .num 100]
    c := some [.num 101, .num 102]
    v := none }

/-- Payload with a non-null timestamp `0` (and a normal one), used for
claim C8: `Date` of the `0` row should be the 1970 epoch under the claim. -/
def payloadC8 : RawOhlc :=
  { t := some [.num 0, .num 1690000000]
    o := some [.num 1, .num 2]
    h := some [.num 1, .num 2]
    l := some [.num 1, .num 2]
    c := some [.num 1, .num 2]
    v := none }

/-- Payload with a null (`None`) timestamp next to a plain second epoch,
used for claim C2. -/
def payloadC2 : RawOhlc :=
  { t := some [.null, .num 1690000000]
    o := some [.num 1, .num 2]
    h := some [.num 1, .num 2]
    l := some [.num 1, .num 2]
    c := some [.num 1, .num 2]
    v := none }

/-- Payload with a null timestamp next to a millisecond epoch, used for
claim C1: the maximum valid (non-null) value is `2·10^12 > 10^12`. -/
def payloadC1 : RawOhlc :=
  { t := some [.null, .num 2000000000000]
    o := some [.num 1, .num 2]
    h := some [.num 1, .num 2]
    l := some [.num 1, .num 2]
    c := some [.num 1, .num 2]
    v := none }

/-- A shorthand row constructor for example tables. -/
def mkRow (d : Int) (q : ℚ) : Candle :=
  ⟨some d, some q, some q, some q, some q, some q⟩

/-- Existing stored table used in the C4 witness. -/
def tableE : List Candle := [mkRow 10 1, mkRow 20 2]

/-- Incoming table used in the C4 witness; its `Date` 20 row conflicts
with `tableE`. -/
def tableI : List Candle := [mkRow 20 99, mkRow 30 3]

/-- A sorted, duplicate-free table used in the C5 witness. -/
def tableT : List Candle := [mkRow 10 1, mkRow 20 2]

/-- Incoming table with an out-of-order `Date` and a duplicate `Date`,
used for claim C10. -/
def tableBad : List Candle := [mkRow 20 2, mkRow 10 1, mkRow 10 99]

/-- Claim C3, counterexample: the claim divides every numeric input whose
magnitude exceeds `10^12` by 1000, but the code compares the signed value
(`iv > 1_000_000_000_000`), so `-2·10^12` — magnitude `2·10^12 > 10^12` —
is returned unchanged instead of as `-2·10^9`. -/
theorem C3_cex_negative_millis :
    to_unix_timestamp (some (-2000000000000 : ℚ)) = some (-2000000000000) ∧
    to_unix_timestamp (some (-2000000000000 : ℚ)) ≠ some (-2000000000) := by
  constructor
  · decide
  · decide

/-- Claim C3 (amended): for every numeric input whose truncated value
strictly exceeds `10^12` (signed comparison — negative values are never
divided), `to_unix_timestamp` returns the value divided by 1000
truncating toward zero; every other numeric input is returned truncated
to an integer unchanged; `None` maps to `None`; and the two concrete
examples hold. -/
theorem C3_to_unix_timestamp_numeric :
    (∀ q : ℚ, 1000000000000 < pyInt q →
      to_unix_timestamp (some q) = some (Int.tdiv (pyInt q) 1000)) ∧
    (∀ q : ℚ, pyInt q ≤ 1000000000000 →
      to_unix_timestamp (some q) = some (pyInt q)) ∧
    to_unix_timestamp none = none ∧
    to_unix_timestamp (some 1690000000) = some 1690000000 ∧
    to_unix_timestamp (some 1690000000000) = some 1690000000 := by
  refine ⟨?_, ?_, rfl, by decide, by decide⟩
  · intro q hq
    simp only [to_unix_timestamp, if_pos hq]
    rw [Int.fdiv_eq_tdiv (by omega) (by omega)]
  · intro q hq
    simp only [to_unix_timestamp]
    rw [if_neg (by omega)]

/-- Witness for C3: the general millisecond branch applied at
`2·10^12`, and the second-epoch branch applied at `5`. -/
theorem C3_to_unix_timestamp_numeric_witness :
    to_unix_timestamp (some (2000000000000 : ℚ)) =
      some (Int.tdiv (pyInt 2000000000000) 1000) ∧
    to_unix_timestamp (some (5 : ℚ)) = some (pyInt 5) :=
  ⟨C3_to_unix_timestamp_numeric.1 2000000000000 (by decide),
   C3_to_unix_timestamp_numeric.2.1 5 (by decide)⟩

/-- Claim C6: every provider-side failure — network error, 4xx/5xx
status, malformed JSON body, or empty payload — makes `get_ohlc` return
an empty table, and any raise inside the `try` block (the last conjunct)
is caught and converted to an empty table, so no exception propagates
past the fetch boundary. -/
theorem C6_fetch_failures_empty :
    get_ohlc .netError = [] ∧
    (∀ s b, 400 ≤ s → s < 600 → get_ohlc (.response s b) = []) ∧
    (∀ s, get_ohlc (.response s none) = []) ∧
    (∀ s d, d.isEmpty = true → get_ohlc (.response s (some d)) = []) ∧
    (∀ r, get_ohlc_inner r = .error () → get_ohlc r = []) := by
  refine ⟨rfl, ?_, ?_, ?_, ?_⟩
  · intro s b h1 h2
    simp [get_ohlc, get_ohlc_inner, h1, h2]
  · intro s
    by_cases hc : 400 ≤ s ∧ s < 600 <;> simp [get_ohlc, get_ohlc_inner, hc]
  · intro s d hd
    by_cases hc : 400 ≤ s ∧ s < 600 <;> simp [get_ohlc, get_ohlc_inner, hc, hd]
  · intro r h
    simp [get_ohlc, h]

/-- Witness for C6: an HTTP 500 response yields the empty table. -/
theorem C6_fetch_failures_empty_witness :
    get_ohlc (.response 500 none) = [] :=
  C6_fetch_failures_empty.2.1 500 none (by decide) (by decide)

/-- Claim C10: on the create path (no existing file) `save_to_csv`
persists the incoming table verbatim; in particular `tableBad`, whose
dates are out of order and duplicated, is stored with those defects, so
the first save enforces neither sortedness nor date-uniqueness. -/
theorem C10_create_path_verbatim :
    (∀ df : List Candle, save_to_csv none df = df) ∧
    save_to_csv none tableBad = tableBad ∧
    ¬ List.Sorted dateLE tableBad ∧
    ¬ (keysOf tableBad).Nodup := by
  refine ⟨fun df => rfl, rfl, ?_, ?_⟩
  · decide
  · decide

/-- Python's `max` over an all-numeric list computes the numeric maximum. -/
theorem pyMaxFrom_num (a : Int) (ns : List Int) :
    pyMaxFrom (.num a) (ns.map TsElem.num) = .ok (.num (ns.foldl max a)) := by
  induction ns generalizing a with
  | nil => rfl
  | cons x xs ih =>
    simp only [List.map_cons, pyMaxFrom, pyGt, List.foldl_cons]
    rcases le_or_lt x a with h | h
    · rw [if_neg (by simp; omega), max_eq_left h, ih]
    · rw [if_pos (by simp [h]), max_eq_right h.le, ih]

/-- The millisecond-unit test on an all-numeric timestamp array reduces
to comparing the list maximum with `10^12`. -/
theorem unitCond_num (ns : List Int) :
    unitCond (ns.map TsElem.num) =
      .ok (decide (1000000000000 < listMaxInt ns)) := by
  cases ns with
  | nil => rfl
  | cons x xs => simp only [List.map_cons, unitCond, pyMaxFrom_num, pyGt, listMaxInt]

/-- The millisecond division comprehension on an all-numeric array
divides every element by 1000 (floor division). -/
theorem mapE_msDiv_num (ns : List Int) :
    mapE msDivElem (ns.map TsElem.num) =
      .ok (ns.map fun n => TsElem.num (Int.fdiv n 1000)) := by
  induction ns with
  | nil => rfl
  | cons x xs ih => simp only [List.map_cons, mapE, msDivElem, ih]

/-- Claim C1 (counterexample): for the timestamp array
`[null, 2·10^12]` the maximum valid (non-null) value is `2·10^12 > 10^12`,
so the claim requires the array to become `[null, 2·10^9]`; the code
instead raises a `TypeError` in `max(t_list)` (comparing `None` with an
int), so `normTs` — and `normalize_ohlc` on the corresponding payload —
returns an error and no table at all. -/
theorem C1_cex_null_in_ms_array :
    normTs [.null, .num 2000000000000] = .error () ∧
    normalize_ohlc 210 payloadC1 = .error () := ⟨rfl, rfl⟩

/-- Claim C1 (amended): for every payload whose timestamp array consists
entirely of numeric values, if the maximum exceeds `10^12` then the
unit-normalization step divides every element by 1000 (integer floor
division), and if it does not, no element is divided; the decision is a
single one for the whole array.  (Arrays containing null or non-numeric
entries make the max-scan raise instead, see the counterexample.) -/
theorem C1_unit_decision (ns : List Int) :
    (1000000000000 < listMaxInt ns →
      normTs (ns.map TsElem.num) =
        .ok (ns.map fun n => TsElem.num (Int.fdiv n 1000))) ∧
    (listMaxInt ns ≤ 1000000000000 →
      normTs (ns.map TsElem.num) = .ok (ns.map TsElem.num)) := by
  constructor
  · intro h
    simp only [normTs, unitCond_num]
    rw [if_pos (by simpa using h)]
    exact mapE_msDiv_num ns
  · intro h
    simp only [normTs, unitCond_num]
    rw [if_neg (by simp; omega)]

/-- Witness for C1: a millisecond-epoch array is divided element-wise
(including the small element `5`), a second-epoch array is untouched. -/
theorem C1_unit_decision_witness :
    normTs ([2000000000000, 5].map TsElem.num) =
      .ok ([2000000000000, 5].map fun n => TsElem.num (Int.fdiv n 1000)) ∧
    normTs ([1690000000, 5].map TsElem.num) =
      .ok ([1690000000, 5].map TsElem.num) :=
  ⟨(C1_unit_decision [2000000000000, 5]).1 (by decide),
   (C1_unit_decision [1690000000, 5]).2 (by decide)⟩

/-- Claim C2 (code bug): the claim — and the spec's propagation policy —
says `normalize_ohlc` never raises and degrades null timestamps to
missing markers, but on a payload whose `t` array contains a null next
to a number, `max(t_list)` on line 55 raises `TypeError` before the
null-tolerant division and conversion steps (lines 56 and 60, which do
guard against `None`) are reached. -/
theorem C2_null_timestamp_raises :
    TsElem.null ∈ payloadC2.t.getD [] ∧
    normalize_ohlc 210 payloadC2 = .error () := ⟨by decide, rfl⟩

/-- Claim C8 (code bug): the claim says every non-null second-epoch
timestamp is converted; but the code's `if ts` guard on line 60 tests
Python truthiness, so the non-null timestamp `0` (the 1970 epoch) is
mapped to `NaT` instead of a converted instant.  The evaluation also
shows the parts of the claim the code does satisfy on this input: rows
sorted ascending by `Date` with `NaT` last, and the `Date` column
shifted to naive local wall clock (+210 minutes). -/
theorem C8_zero_timestamp_becomes_missing :
    normalize_ohlc 210 payloadC8 =
      .ok [⟨some 1690012600, some 2, some 2, some 2, some 2, some 0⟩,
           ⟨none, some 1, some 1, some 1, some 1, some 0⟩] := rfl

/-- A row assembled by `buildRows` takes its `Volume` cell from the
volume column. -/
theorem buildRows_volume_mem {r : Candle} :
    ∀ (d : List (Option Int)) (o h l c v : List (Option ℚ)),
      r ∈ buildRows d o h l c v → r.Volume ∈ v := by
  intro d
  induction d with
  | nil => intro o h l c v hr; simp [buildRows] at hr
  | cons x ds ih =>
    intro o h l c v hr
    rcases o with _ | ⟨yo, os⟩ <;> rcases h with _ | ⟨yh, hs⟩ <;>
      rcases l with _ | ⟨yl, ls⟩ <;> rcases c with _ | ⟨yc, cs⟩ <;>
      rcases v with _ | ⟨yv, vs⟩ <;> simp [buildRows] at hr
    rcases hr with rfl | hr
    · exact List.mem_cons_self _ _
    · exact List.mem_cons_of_mem _ (ih os hs ls cs vs hr)

/-- When the payload has no `v` key, every row of a successful
`normalize_ohlc` output has `Volume = 0` (the scalar `0` is broadcast to
all rows by the `DataFrame` constructor). -/
theorem normalize_ohlc_volume_default (off : Int) (p : RawOhlc)
    (df : List Candle) (hv : p.v = none)
    (hok : normalize_ohlc off p = .ok df) :
    ∀ r ∈ df, r.Volume = some 0 := by
  intro r hr
  simp only [normalize_ohlc, hv] at hok
  split at hok
  · cases hok
    simp at hr
  · split at hok
    · cases hok
    · rename_i t_list heq
      split at hok
      · cases hok
      · rename_i dates heq2
        split at hok
        · cases hok
          simp only [List.mem_map] at hr
          obtain ⟨r0, hr0, rfl⟩ := hr
          have hr1 : r0 ∈ buildRows dates ((p.o.getD []).map coerceP)
              ((p.h.getD []).map coerceP) ((p.l.getD []).map coerceP)
              ((p.c.getD []).map coerceP)
              (List.replicate dates.length (some (0 : ℚ))) := by
            simpa [sortByDate, List.mem_insertionSort] using hr0
          have hv0 := buildRows_volume_mem _ _ _ _ _ _ hr1
          have : r0.Volume = some 0 := List.eq_of_mem_replicate hv0
          simpa [stripTz] using this
        · cases hok

/-- Claim C9: for every payload lacking the `v` key, every row of a
successful normalization has `Volume = 0`; and the spec's concrete
payload normalizes to the expected 2-row table with both volumes `0`,
strictly increasing `Date` and no missing values. -/
theorem C9_missing_v_defaults_volume :
    (∀ (off : Int) (p : RawOhlc) (df : List Candle), p.v = none →
      normalize_ohlc off p = .ok df → ∀ r ∈ df, r.Volume = some 0) ∧
    normalize_ohlc 210 payloadC9 =
      .ok [⟨some 1690012600, some 100, some 102, some 99, some 101, some 0⟩,
           ⟨some 1690012900, some 101, some 103, some 100, some 102, some 0⟩] :=
  ⟨normalize_ohlc_volume_default, rfl⟩

/-- Witness for C9: the universal volume-default statement applied to the
concrete payload and its first row. -/
theorem C9_missing_v_defaults_volume_witness :
    (⟨some 1690012600, some 100, some 102, some 99, some 101, some 0⟩ :
      Candle).Volume = some 0 :=
  C9_missing_v_defaults_volume.1 210 payloadC9
    [⟨some 1690012600, some 100, some 102, some 99, some 101, some 0⟩,
     ⟨some 1690012900, some 101, some 103, some 100, some 102, some 0⟩]
    rfl rfl _ (List.mem_cons_self _ _)

/-- The dedup worker only consults the `seen` keys up to membership. -/
theorem dedupAux_congr {s1 s2 : List (Option Int)}
    (h : ∀ k, k ∈ s1 ↔ k ∈ s2) :
    ∀ l, dedupAux s1 l = dedupAux s2 l := by
  intro l
  induction l generalizing s1 s2 with
  | nil => rfl
  | cons x xs ih =>
    simp only [dedupAux]
    by_cases hx : x.Date ∈ s1
    · rw [if_pos hx, if_pos ((h _).1 hx), ih h]
    · rw [if_neg hx, if_neg (fun hc => hx ((h _).2 hc))]
      have h2 : ∀ k, k ∈ x.Date :: s1 ↔ k ∈ x.Date :: s2 := by
        intro k
        simp only [List.mem_cons]
        exact or_congr Iff.rfl (h k)
      rw [ih h2]

/-- Splitting the dedup worker over an append: the second half is
deduplicated against all keys of the first. -/
theorem dedupAux_append (l : List Candle) :
    ∀ (l' : List Candle) (seen : List (Option Int)),
      dedupAux seen (l ++ l') =
        dedupAux seen l ++ dedupAux (keysOf l ++ seen) l' := by
  induction l with
  | nil => intro l' seen; simp [dedupAux, keysOf]
  | cons x xs ih =>
    intro l' seen
    simp only [List.cons_append, dedupAux, keysOf, List.map_cons, List.append_eq]
    by_cases hx : x.Date ∈ seen
    · rw [if_pos hx, if_pos hx, ih]
      have hmem : ∀ k, k ∈ keysOf xs ++ seen ↔
          k ∈ x.Date :: (List.map Candle.Date xs ++ seen) := by
        intro k
        simp only [List.mem_append, List.mem_cons, keysOf]
        constructor
        · rintro (hk | hk)
          · exact Or.inr (Or.inl hk)
          · exact Or.inr (Or.inr hk)
        · rintro (rfl | hk | hk)
          · exact Or.inr hx
          · exact Or.inl hk
          · exact Or.inr hk
      rw [dedupAux_congr hmem l']
    · rw [if_neg hx, if_neg hx, ih, List.cons_append]
      have hmem : ∀ k, k ∈ keysOf xs ++ x.Date :: seen ↔
          k ∈ x.Date :: (List.map Candle.Date xs ++ seen) := by
        intro k
        simp only [List.mem_append, List.mem_cons, keysOf]
        tauto
      rw [dedupAux_congr hmem l']

/-- A list all of whose keys are already seen is deduplicated to nothing. -/
theorem dedupAux_of_all_seen :
    ∀ (l : List Candle) (seen : List (Option Int)),
      (∀ x ∈ l, x.Date ∈ seen) → dedupAux seen l = [] := by
  intro l
  induction l with
  | nil => intro seen _; rfl
  | cons x xs ih =>
    intro seen h
    simp only [dedupAux]
    rw [if_pos (h x (List.mem_cons_self _ _))]
    exact ih seen (fun y hy => h y (List.mem_cons_of_mem _ hy))

/-- Saving a table on top of itself deduplicates the second copy away. -/
theorem dedupByDate_append_self (l : List Candle) :
    dedupByDate (l ++ l) = dedupByDate l := by
  unfold dedupByDate
  rw [dedupAux_append]
  rw [dedupAux_of_all_seen l (keysOf l ++ [])
    (fun x hx => by simp [keysOf]; exact ⟨x, hx, rfl⟩)]
  simp

/-- A table whose keys are already duplicate-free is left unchanged by
the dedup step. -/
theorem dedupAux_of_nodup :
    ∀ (l : List Candle) (seen : List (Option Int)),
      (keysOf l).Nodup → (∀ x ∈ l, x.Date ∉ seen) → dedupAux seen l = l := by
  intro l
  induction l with
  | nil => intro seen _ _; rfl
  | cons x xs ih =>
    intro seen hn hs
    simp only [dedupAux]
    rw [if_neg (hs x (List.mem_cons_self _ _))]
    simp only [keysOf, List.map_cons, List.nodup_cons] at hn
    congr 1
    refine ih (x.Date :: seen) hn.2 ?_
    intro y hy
    simp only [List.mem_cons]
    push_neg
    constructor
    · intro hcontra
      exact hn.1 (hcontra ▸ List.mem_map_of_mem Candle.Date hy)
    · exact hs y (List.mem_cons_of_mem _ hy)

/-- The dedup step preserves the first row carrying each key that has
not been seen yet. -/
theorem findByDate_dedupAux (d : Option Int) :
    ∀ (l : List Candle) (seen : List (Option Int)), d ∉ seen →
      findByDate d (dedupAux seen l) = findByDate d l := by
  intro l
  induction l with
  | nil => intro seen _; rfl
  | cons x xs ih =>
    intro seen hd
    simp only [dedupAux]
    by_cases hx : x.Date = d
    · rw [if_neg (hx ▸ hd)]
      simp only [findByDate]
      rw [List.find?_cons_of_pos _ (by simp [hx]),
        List.find?_cons_of_pos _ (by simp [hx])]
    · by_cases hs : x.Date ∈ seen
      · rw [if_pos hs]
        unfold findByDate
        rw [List.find?_cons_of_neg _ (by simp [hx])]
        exact ih seen hd
      · rw [if_neg hs]
        unfold findByDate
        rw [List.find?_cons_of_neg _ (by simp [hx]),
          List.find?_cons_of_neg _ (by simp [hx])]
        refine ih (x.Date :: seen) ?_
        simp only [List.mem_cons]
        push_neg
        exact ⟨fun hc => hx hc.symm, hd⟩

/-- The dedup step leaves no duplicate keys, and none of the seen ones. -/
theorem dedupAux_keys_nodup :
    ∀ (l : List Candle) (seen : List (Option Int)),
      (keysOf (dedupAux seen l)).Nodup ∧
        ∀ k ∈ keysOf (dedupAux seen l), k ∉ seen := by
  intro l
  induction l with
  | nil => intro seen; simp [dedupAux, keysOf]
  | cons x xs ih =>
    intro seen
    simp only [dedupAux]
    by_cases hx : x.Date ∈ seen
    · rw [if_pos hx]
      exact ih seen
    · rw [if_neg hx]
      obtain ⟨h1, h2⟩ := ih (x.Date :: seen)
      simp only [keysOf, List.map_cons, List.nodup_cons]
      refine ⟨⟨fun hc => ?_, h1⟩, ?_⟩
      · exact h2 x.Date hc (List.mem_cons_self _ _)
      · intro k hk
        rcases List.mem_cons.1 hk with rfl | hk
        · exact hx
        · intro hc
          exact h2 k hk (List.mem_cons_of_mem _ hc)

/-- Keys are not duplicated after `drop_duplicates`. -/
theorem dedupByDate_keys_nodup (l : List Candle) :
    (keysOf (dedupByDate l)).Nodup :=
  (dedupAux_keys_nodup l []).1

/-- On a list with duplicate-free keys, `find?` by key transfers along a
permutation. -/
theorem findByDate_perm {l l' : List Candle} (hp : l.Perm l')
    (hn : (keysOf l).Nodup) (d : Option Int) :
    findByDate d l' = findByDate d l := by
  unfold findByDate
  cases hc : List.find? (fun c => c.Date == d) l with
  | none =>
    rw [List.find?_eq_none] at hc ⊢
    intro x hx
    exact hc x (hp.mem_iff.2 hx)
  | some c =>
    have hcl : c ∈ l := List.mem_of_find?_eq_some hc
    have hcd := List.find?_some hc
    cases hx : List.find? (fun c => c.Date == d) l' with
    | none =>
      rw [List.find?_eq_none] at hx
      exact absurd hcd (hx c (hp.subset hcl))
    | some x =>
      have hxl : x ∈ l := hp.symm.subset (List.mem_of_find?_eq_some hx)
      have hxd := List.find?_some hx
      have hxc : x = c := by
        refine List.inj_on_of_nodup_map (f := Candle.Date) hn hxl hcl ?_
        simp only [beq_iff_eq] at hxd hcd
        rw [hxd, hcd]
      rw [hxc]

/-- First-match lookup distributes over append. -/
theorem findByDate_append (d : Option Int) :
    ∀ (E I : List Candle),
      findByDate d (E ++ I) = (findByDate d E).or (findByDate d I) := by
  intro E I
  induction E with
  | nil => simp [findByDate]
  | cons x xs ih =>
    by_cases hx : x.Date = d
    · unfold findByDate
      rw [List.cons_append, List.find?_cons_of_pos _ (by simp [hx]),
        List.find?_cons_of_pos _ (by simp [hx])]
      rfl
    · unfold findByDate
      rw [List.cons_append, List.find?_cons_of_neg _ (by simp [hx]),
        List.find?_cons_of_neg _ (by simp [hx])]
      exact ih

/-- Claim C4: merging an incoming table into an existing one keeps, for
every date present in both, the existing table's (first) row for that
date; the merged table is sorted ascending by `Date`, has no duplicate
`Date` keys, and is written with the fixed column order. -/
theorem C4_merge_existing_wins (E I : List Candle) :
    (∀ d, d ∈ keysOf E → d ∈ keysOf I →
      findByDate d (save_to_csv (some E) I) = findByDate d E) ∧
    List.Sorted dateLE (save_to_csv (some E) I) ∧
    (keysOf (save_to_csv (some E) I)).Nodup ∧
    save_columns = ["Date", "Open", "High", "Low", "Close", "Volume"] := by
  refine ⟨?_, ?_, ?_, rfl⟩
  · intro d hdE _
    show findByDate d (sortByDate (dedupByDate (E ++ I))) = findByDate d E
    rw [show sortByDate (dedupByDate (E ++ I)) =
        List.insertionSort dateLE (dedupByDate (E ++ I)) from rfl]
    rw [findByDate_perm (List.perm_insertionSort dateLE _).symm
      (dedupByDate_keys_nodup _) d]
    rw [show dedupByDate (E ++ I) = dedupAux [] (E ++ I) from rfl]
    rw [findByDate_dedupAux d (E ++ I) [] (by simp)]
    rw [findByDate_append]
    cases hfe : findByDate d E with
    | none =>
      exfalso
      unfold findByDate at hfe
      rw [List.find?_eq_none] at hfe
      simp only [keysOf] at hdE
      obtain ⟨c, hcE, rfl⟩ := List.mem_map.1 hdE
      exact hfe c hcE (by simp)
    | some c => rfl
  · exact List.sorted_insertionSort dateLE _
  · show (keysOf (List.insertionSort dateLE (dedupByDate (E ++ I)))).Nodup
    have hp := (List.perm_insertionSort dateLE (dedupByDate (E ++ I))).map
      Candle.Date
    exact hp.nodup_iff.2 (dedupByDate_keys_nodup _)

/-- Witness for C4: the date-20 row of the merged store is the existing
table's row `mkRow 20 2`, not the incoming `mkRow 20 99`. -/
theorem C4_merge_existing_wins_witness :
    findByDate (some 20) (save_to_csv (some tableE) tableI) =
      some (mkRow 20 2) :=
  ((C4_merge_existing_wins tableE tableI).1 (some 20) (by decide)
    (by decide)).trans (by decide)

/-- Claim C5: for a table that satisfies the data-model invariant
(sorted ascending by `Date`, no duplicate `Date` keys — as every
normalized fetch result is expected to), saving it twice for the same
key leaves the persisted content equal to the content after saving it
once. -/
theorem C5_save_idempotent (T : List Candle)
    (hs : List.Sorted dateLE T) (hn : (keysOf T).Nodup) :
    save_to_csv (some (save_to_csv none T)) T = save_to_csv none T := by
  show sortByDate (dedupByDate (T ++ T)) = T
  rw [dedupByDate_append_self]
  rw [show dedupByDate T = dedupAux [] T from rfl]
  rw [dedupAux_of_nodup T [] hn (by simp)]
  show List.insertionSort dateLE T = T
  exact hs.insertionSort_eq

/-- Witness for C5: idempotence at a concrete sorted, duplicate-free
table. -/
theorem C5_save_idempotent_witness :
    save_to_csv (some (save_to_csv none tableT)) tableT =
      save_to_csv none tableT :=
  C5_save_idempotent tableT (by decide) (by decide)

/-- Trace of zero failed attempts. -/
theorem failEvents_zero : failEvents 0 = [] := rfl

/-- Trace of one failed attempt. -/
theorem failEvents_one : failEvents 1 = [.fetch 1, .sleep 2] := rfl

/-- Trace of two failed attempts. -/
theorem failEvents_two :
    failEvents 2 = [.fetch 1, .sleep 2, .fetch 2, .sleep 2] := rfl

/-- Claim C7: the batch driver's retry policy for one pair.  First
conjunct: when all three attempts fail (raise or empty), the driver
makes exactly three fetch attempts, sleeps 2 units after each failed
attempt, reports failure without raising, and leaves the store for the
key untouched (no write event).  Second conjunct: when the first
success (a non-empty table) comes at attempt `j ≤ 3` after `j - 1`
failures, the trace is `j` fetches with a 2-unit delay after each failed
one and exactly one store write of the merged table.  Last conjuncts:
never more than 3 fetch attempts nor more than one write, for any
outcome sequence. -/
theorem C7_retry_policy (outcomes : Nat → Except Unit (List Candle))
    (store : Option (List Candle)) :
    ((∀ k, 1 ≤ k → k ≤ 3 → isFailure (outcomes k)) →
      processPair outcomes store =
        (store, [.fetch 1, .sleep 2, .fetch 2, .sleep 2, .fetch 3, .sleep 2,
                 .reportFail])) ∧
    (∀ j df, 1 ≤ j → j ≤ 3 →
      (∀ k, 1 ≤ k → k < j → isFailure (outcomes k)) →
      outcomes j = .ok df → df ≠ [] →
      processPair outcomes store =
        (some (save_to_csv store df),
         failEvents (j - 1) ++ [.fetch j, .write (save_to_csv store df)])) ∧
    countFetch (processPair outcomes store).2 ≤ 3 ∧
    countWrite (processPair outcomes store).2 ≤ 1 := by
  refine ⟨?_, ?_, ?_, ?_⟩
  · intro h
    rcases h 1 (by omega) (by omega) with h1 | h1 <;>
      rcases h 2 (by omega) (by omega) with h2 | h2 <;>
      rcases h 3 (by omega) (by omega) with h3 | h3 <;>
      simp [processPair, MAX_RETRIES, attemptLoop, h1, h2, h3]
  · intro j df hj1 hj3 hfail hok hne
    have hemp : df.isEmpty = false := by
      cases df with
      | nil => exact absurd rfl hne
      | cons a as => rfl
    interval_cases j
    · rw [failEvents_zero]
      simp [processPair, MAX_RETRIES, attemptLoop, hok, hemp]
    · rcases hfail 1 (by omega) (by omega) with h1 | h1 <;>
      · rw [failEvents_one]
        simp [processPair, MAX_RETRIES, attemptLoop, h1, hok, hemp]
    · rcases hfail 1 (by omega) (by omega) with h1 | h1 <;>
        rcases hfail 2 (by omega) (by omega) with h2 | h2 <;>
      · rw [failEvents_two]
        simp [processPair, MAX_RETRIES, attemptLoop, h1, h2, hok, hemp]
  · cases h1 : outcomes 1 with
    | error e =>
      cases h2 : outcomes 2 with
      | error e2 =>
        cases h3 : outcomes 3 with
        | error e3 => simp [processPair, MAX_RETRIES, attemptLoop, h1, h2, h3,
            countFetch]
        | ok df3 =>
          by_cases h3e : df3.isEmpty <;>
            simp [processPair, MAX_RETRIES, attemptLoop, h1, h2, h3, h3e,
              countFetch]
      | ok df2 =>
        by_cases h2e : df2.isEmpty
        · cases h3 : outcomes 3 with
          | error e3 => simp [processPair, MAX_RETRIES, attemptLoop, h1, h2, h2e,
              h3, countFetch]
          | ok df3 =>
            by_cases h3e : df3.isEmpty <;>
              simp [processPair, MAX_RETRIES, attemptLoop, h1, h2, h2e, h3, h3e,
                countFetch]
        · simp [processPair, MAX_RETRIES, attemptLoop, h1, h2, h2e, countFetch]
    | ok df1 =>
      by_cases h1e : df1.isEmpty
      · cases h2 : outcomes 2 with
        | error e2 =>
          cases h3 : outcomes 3 with
          | error e3 => simp [processPair, MAX_RETRIES, attemptLoop, h1, h1e, h2,
              h3, countFetch]
          | ok df3 =>
            by_cases h3e : df3.isEmpty <;>
              simp [processPair, MAX_RETRIES, attemptLoop, h1, h1e, h2, h3, h3e,
                countFetch]
        | ok df2 =>
          by_cases h2e : df2.isEmpty
          · cases h3 : outcomes 3 with
            | error e3 => simp [processPair, MAX_RETRIES, attemptLoop, h1, h1e,
                h2, h2e, h3, countFetch]
            | ok df3 =>
              by_cases h3e : df3.isEmpty <;>
                simp [processPair, MAX_RETRIES, attemptLoop, h1, h1e, h2, h2e,
                  h3, h3e, countFetch]
          · simp [processPair, MAX_RETRIES, attemptLoop, h1, h1e, h2, h2e,
              countFetch]
      · simp [processPair, MAX_RETRIES, attemptLoop, h1, h1e, countFetch]
  · cases h1 : outcomes 1 with
    | error e =>
      cases h2 : outcomes 2 with
      | error e2 =>
        cases h3 : outcomes 3 with
        | error e3 => simp [processPair, MAX_RETRIES, attemptLoop, h1, h2, h3,
            countWrite]
        | ok df3 =>
          by_cases h3e : df3.isEmpty <;>
            simp [processPair, MAX_RETRIES, attemptLoop, h1, h2, h3, h3e,
              countWrite]
      | ok df2 =>
        by_cases h2e : df2.isEmpty
        · cases h3 : outcomes 3 with
          | error e3 => simp [processPair, MAX_RETRIES, attemptLoop, h1, h2, h2e,
              h3, countWrite]
          | ok df3 =>
            by_cases h3e : df3.isEmpty <;>
              simp [processPair, MAX_RETRIES, attemptLoop, h1, h2, h2e, h3, h3e,
                countWrite]
        · simp [processPair, MAX_RETRIES, attemptLoop, h1, h2, h2e, countWrite]
    | ok df1 =>
      by_cases h1e : df1.isEmpty
      · cases h2 : outcomes 2 with
        | error e2 =>
          cases h3 : outcomes 3 with
          | error e3 => simp [processPair, MAX_RETRIES, attemptLoop, h1, h1e, h2,
              h3, countWrite]
          | ok df3 =>
            by_cases h3e : df3.isEmpty <;>
              simp [processPair, MAX_RETRIES, attemptLoop, h1, h1e, h2, h3, h3e,
                countWrite]
        | ok df2 =>
          by_cases h2e : df2.isEmpty
          · cases h3 : outcomes 3 with
            | error e3 => simp [processPair, MAX_RETRIES, attemptLoop, h1, h1e,
                h2, h2e, h3, countWrite]
            | ok df3 =>
              by_cases h3e : df3.isEmpty <;>
                simp [processPair, MAX_RETRIES, attemptLoop, h1, h1e, h2, h2e,
                  h3, h3e, countWrite]
          · simp [processPair, MAX_RETRIES, attemptLoop, h1, h1e, h2, h2e,
              countWrite]
      · simp [processPair, MAX_RETRIES, attemptLoop, h1, h1e, countWrite]

/-- Witness for C7: a run whose first attempt returns an empty table and
whose second attempt returns a one-row table writes exactly once after a
single 2-unit delay. -/
theorem C7_retry_policy_witness :
    processPair (fun k => if k = 2 then .ok [mkRow 10 1] else .ok []) none =
      (some [mkRow 10 1], [.fetch 1, .sleep 2, .fetch 2, .write [mkRow 10 1]]) := by
  have h := (C7_retry_policy
      (fun k => if k = 2 then .ok [mkRow 10 1] else .ok []) none).2.1 2
      [mkRow 10 1] (by omega) (by omega)
      (fun k hk1 hk2 => by
        have hk : k = 1 := by omega
        subst hk
        exact Or.inr rfl)
      rfl (by simp)
  exact h
